/-
Verification of the s3-media-endpoint service against its specification.

The development shallowly embeds the Rust source (src/media.rs, src/micropub.rs,
src/main.rs, src/oauth.rs) into Lean:

* pure functions become Lean functions over `Nat` / `Int` / `List` / `String`;
* the external collaborators (the S3 client, the token verifier, the multipart
  stream and the `image` codec library) are passed in as explicit function
  arguments, matching the capability interfaces described in the spec;
* `f64` arithmetic in `scale_image` is idealised as exact rational arithmetic
  expressed over `Nat` by cross-multiplication (the spec itself states the
  rules in exact integer-truncated terms);
* fallible calls return `Except`; the two `unwrap` sites in the upload handler
  are modelled as an explicit `panic` outcome, distinct from any HTTP response.
-/
import Mathlib

set_option autoImplicit false

namespace S3Media

/-! ## Image model (src/media.rs)

The `image` crate is an external collaborator.  Pixel data is abstracted as an
opaque `List Nat`; dimensions are tracked exactly.  The dimension arithmetic of
`DynamicImage::resize` (the crate's `resize_dimensions` with `fill = false`)
and of `scale_image` itself is embedded exactly. -/

/-- An in-memory decoded image: dimensions plus opaque pixel content. -/
structure Image where
  width : Nat
  height : Nat
  content : List Nat
  deriving DecidableEq

/-- `image::ImageFormat` — constructors for the formats named in
`mime_for_image`, plus some of the remaining crate formats reaching the
wildcard arm. -/
inductive ImageFormat where
  | png | jpeg | gif | tiff | ico | webp | bmp | pnm | tga | dds | hdr | farbfeld
  | avif | openExr | qoi
  deriving DecidableEq

/-- `image::metadata::Orientation` (EXIF orientations). -/
inductive ExifOrientation where
  | noTransforms | rotate90 | rotate180 | rotate270
  | flipHorizontal | flipVertical | rotate90FlipH | rotate270FlipH
  deriving DecidableEq

/-- `DynamicImage::apply_orientation`: the quarter-turn orientations swap the
two dimensions; the pixel permutation itself is abstracted. -/
def applyOrientation (o : ExifOrientation) (img : Image) : Image :=
  match o with
  | .rotate90 | .rotate270 | .rotate90FlipH | .rotate270FlipH =>
      ⟨img.height, img.width, img.content⟩
  | _ => img

/-- `mime_for_image` from src/media.rs lines 219-235: the finite format → MIME
table, with `""` for unmapped formats. -/
def mime_for_image (fmt : ImageFormat) : String :=
  match fmt with
  | .png => "image/png"
  | .jpeg => "image/jpeg"
  | .gif => "image/gif"
  | .tiff => "image/tiff"
  | .ico => "image/vnd.microsoft.icon"
  | .webp => "image/webp"
  | .bmp => "image/bmp"
  | .pnm => "image/x-portable-anymap"
  | .tga => "image/x-tga"
  | .dds => "image/vnd.ms-dds"
  | .hdr => "image/vnd.radiance"
  | .farbfeld => "image/farbfeld"
  | _ => ""

/-- Rust `f64::round` (half away from zero) of the non-negative rational
`num / den`, i.e. `⌊(num + den/2) / den⌋` computed as `(2*num + den) / (2*den)`. -/
def roundHalf (num den : Nat) : Nat := (2 * num + den) / (2 * den)

/-- The `image` crate's `resize_dimensions (fill := false)`, used by
`DynamicImage::resize`: scale by `min(nw/W, nh/H)`, round each dimension,
clamp below at 1.  The `f64` ratios are idealised as exact rationals (the
comparison `nw/W ≤ nh/H` becomes `nw*H ≤ nh*W`); the `u32::MAX` overflow
branches are dead for `u32` inputs because the minimum ratio is taken. -/
def resize_dimensions (W H nw nh : Nat) : Nat × Nat :=
  if nw * H ≤ nh * W then
    (max (roundHalf (W * nw) W) 1, max (roundHalf (H * nw) W) 1)
  else
    (max (roundHalf (W * nh) H) 1, max (roundHalf (H * nh) H) 1)

/-- The intermediate resize target of `scale_image` (src/media.rs lines
200-206): `ratio = W/H`; if `width > height` fix the width and derive the
height as `width / ratio` truncated, else fix the height and derive the width
as `height * ratio` truncated.  Exactly: `w / (W/H) = w*H/W` and
`h * (W/H) = h*W/H`, integer-truncated. -/
def scaleTarget (W H w h : Nat) : Nat × Nat :=
  if h < w then (w, w * H / W) else (h * W / H, h)

/-- Output dimensions of `scale_image` for an image of (orientation-applied)
natural size `(W, H)` and request `(w, h)` (src/media.rs lines 199-211):
resize only when both targets are strictly smaller, through
`resize_dimensions` applied to the intermediate target. -/
def scale_image_dims (W H w h : Nat) : Nat × Nat :=
  if w < W ∧ h < H then
    let t := scaleTarget W H w h
    resize_dimensions W H t.1 t.2
  else (W, H)

/-- The codec operations of the `image` crate consumed by `scale_image`,
as a capability record: format sniffing, decoding (with optional EXIF
orientation, `decoder.orientation().unwrap_or(NoTransforms)`), pixel
resampling (CatmullRom, abstracted), and re-encoding. -/
structure ImgOps where
  guessFormat : List Nat → Except String ImageFormat
  decode : ImageFormat → List Nat → Except String (Option ExifOrientation × Image)
  resizePixels : Image → Nat → Nat → List Nat
  encode : ImageFormat → Image → Except String (List Nat)

/-- `DynamicImage::resize`: dimensions from `resize_dimensions`, pixels from
the abstract resampler. -/
def imageResize (ops : ImgOps) (img : Image) (nw nh : Nat) : Image :=
  let d := resize_dimensions img.width img.height nw nh
  ⟨d.1, d.2, ops.resizePixels img d.1 d.2⟩

/-- The `scaled` image of `scale_image` (src/media.rs lines 199-211): resize
to the intermediate target when both requested dimensions are strictly
smaller than the natural ones, otherwise keep the image unscaled. -/
def scaledImage (ops : ImgOps) (img : Image) (w h : Nat) : Image :=
  if w < img.width ∧ h < img.height then
    let t := scaleTarget img.width img.height w h
    imageResize ops img t.1 t.2
  else img

/-- `scale_image` from src/media.rs lines 181-217: sniff the format, decode,
apply the EXIF orientation, scale (never up), re-encode in the detected
format, and return the MIME string for that format with the new bytes. -/
def scale_image (ops : ImgOps) (data : List Nat) (width height : Nat) :
    Except String (String × List Nat) :=
  match ops.guessFormat data with
  | .error e => .error e
  | .ok fmt =>
    match ops.decode fmt data with
    | .error e => .error e
    | .ok (ornt, img0) =>
      let orientation := ornt.getD ExifOrientation.noTransforms
      let img := applyOrientation orientation img0
      let scaled := scaledImage ops img width height
      match ops.encode fmt scaled with
      | .error e => .error e
      | .ok new_data => .ok (mime_for_image fmt, new_data)

/-! ## Delivery handlers (src/media.rs)

The S3 client is an external collaborator; `get_object` / `head_object` are
passed in as functions from the request key to an `Except`, where `.error`
models a failed rusoto call (in particular a missing key, which S3 reports as
an error) and `.ok` a successful response. -/

/-- The S3 headers copied by the `response_for!` macro. -/
structure S3Headers where
  cache_control : Option String
  content_disposition : Option String
  content_encoding : Option String
  content_language : Option String
  content_type : Option String
  e_tag : Option String
  last_modified : Option String
  deriving DecidableEq

/-- rusoto `GetObjectOutput`, restricted to the fields the handlers read:
the copied headers and the optional body stream. -/
structure GetObjectResponse where
  headers : S3Headers
  body : Option (List Nat)
  deriving DecidableEq

/-- actix `HttpResponseBuilder::insert_header`: replaces any header with the
same name. -/
def insertHeader (hs : List (String × String)) (k v : String) : List (String × String) :=
  hs.filter (fun p => p.1 ≠ k) ++ [(k, v)]

/-- The `response_for!` macro (src/media.rs lines 20-57): a default one-year
cache-control header and a permissive CORS header first, then each present S3
header inserted (overriding the default) in source order. -/
def response_for (h : S3Headers) : List (String × String) :=
  let base := [("cache-control", "max-age=31557600"), ("access-control-allow-origin", "*")]
  let step := fun (hs : List (String × String)) (k : String) (v : Option String) =>
    match v with
    | some v => insertHeader hs k v
    | none => hs
  step (step (step (step (step (step (step base
    "cache-control" h.cache_control)
    "content-disposition" h.content_disposition)
    "content-encoding" h.content_encoding)
    "content-language" h.content_language)
    "content-type" h.content_type)
    "etag" h.e_tag)
    "last-modified" h.last_modified

/-- A response of the media handlers: status, headers, optional byte body. -/
structure MediaResponse where
  status : Nat
  headers : List (String × String)
  body : Option (List Nat)
  deriving DecidableEq

/-- Modelled from the spec: the `SiteConfig` used by `src/micropub.rs` and
`src/media.rs` (with accessors `s3_bucket`, `media_url`, `default_width`,
`default_height`) is not itself present under src/ — the `SiteConfig` in
src/main.rs belongs to the older standalone variant and lacks the default
dimensions.  Its fields follow the spec's configuration surface (§6). -/
structure SiteConfig where
  s3_bucket : String
  media_url : String
  default_width : Nat
  default_height : Nat
  deriving DecidableEq

/-- Rust `str::parse::<u32>` on the digit value of a decimal string: `none`
on an empty or non-digit string and on overflow past `u32::MAX`. -/
def parseDigits : List Char → Nat → Option Nat
  | [], acc => some acc
  | c :: rest, acc =>
    if '0' ≤ c ∧ c ≤ '9' then parseDigits rest (10 * acc + (c.toNat - '0'.toNat))
    else none

def parseU32 (s : String) : Option Nat :=
  match s.toList with
  | [] => none
  | l => match parseDigits l 0 with
    | some n => if n < 4294967296 then some n else none
    | none => none

/-- `serve_file` (src/media.rs lines 97-129): build key `{type}/{filename}`,
get the object (rusoto failure ⇒ 500), 404 only when the successful response
carries no body, otherwise stream it with the copied headers. -/
def serve_file (config : SiteConfig)
    (s3get : String × String → Except String GetObjectResponse)
    (mediaType filename : Option String) : MediaResponse :=
  match mediaType with
  | none => ⟨400, [], none⟩
  | some media_type =>
    match filename with
    | none => ⟨400, [], none⟩
    | some fname =>
      let key := media_type ++ "/" ++ fname
      match s3get (config.s3_bucket, key) with
      | .error _ => ⟨500, [], none⟩
      | .ok resp =>
        match resp.body with
        | none => ⟨404, [], none⟩
        | some data => ⟨200, response_for resp.headers, some data⟩

/-- `head_file` (src/media.rs lines 65-95): head the object (rusoto failure ⇒
500) and return the copied headers with no body; there is no 404 branch. -/
def head_file (config : SiteConfig)
    (s3head : String × String → Except String S3Headers)
    (mediaType filename : Option String) : MediaResponse :=
  match mediaType with
  | none => ⟨400, [], none⟩
  | some media_type =>
    match filename with
    | none => ⟨400, [], none⟩
    | some fname =>
      let key := media_type ++ "/" ++ fname
      match s3head (config.s3_bucket, key) with
      | .error _ => ⟨500, [], none⟩
      | .ok resp => ⟨200, response_for resp, none⟩

/-- `serve_photo` (src/media.rs lines 131-179): parse width/height (missing or
unparsable ⇒ 400), get `photo/{filename}` (rusoto failure ⇒ 500), 404 when the
successful response has no body, buffer, scale (scale failure ⇒ 500), answer
with the copied headers and the transformed content type. -/
def serve_photo (ops : ImgOps) (config : SiteConfig)
    (s3get : String × String → Except String GetObjectResponse)
    (widthP heightP filenameP : Option String) : MediaResponse :=
  match widthP with
  | none => ⟨400, [], none⟩
  | some ws =>
    match parseU32 ws with
    | none => ⟨400, [], none⟩
    | some width =>
      match heightP with
      | none => ⟨400, [], none⟩
      | some hs =>
        match parseU32 hs with
        | none => ⟨400, [], none⟩
        | some height =>
          match filenameP with
          | none => ⟨400, [], none⟩
          | some fname =>
            let key := "photo/" ++ fname
            match s3get (config.s3_bucket, key) with
            | .error _ => ⟨500, [], none⟩
            | .ok resp =>
              match resp.body with
              | none => ⟨404, [], none⟩
              | some data =>
                match scale_image ops data width height with
                | .error _ => ⟨500, [], none⟩
                | .ok (mime, new_data) =>
                  ⟨200, insertHeader (response_for resp.headers) "content-type" mime,
                    some new_data⟩

/-! ## OAuth access tokens (src/oauth.rs) -/

/-- `AccessToken` from src/oauth.rs lines 10-15. -/
structure AccessToken where
  me : String
  client_id : String
  scope : String
  deriving DecidableEq

/-- Rust `char::is_ascii_whitespace`. -/
def asciiWS (c : Char) : Bool :=
  c = ' ' || c = '\t' || c = '\n' || c = '\x0c' || c = '\r'

/-- The word splitter behind `str::split_ascii_whitespace`: maximal runs of
non-whitespace characters, in order, with no empty words. -/
def splitWords : List Char → List Char → List (List Char)
  | [], acc => if acc = [] then [] else [acc.reverse]
  | c :: rest, acc =>
    if asciiWS c then
      if acc = [] then splitWords rest [] else acc.reverse :: splitWords rest []
    else splitWords rest (c :: acc)

/-- `AccessToken::scopes` (src/oauth.rs lines 26-28):
`self.scope.split_ascii_whitespace()`. -/
def AccessToken.scopes (t : AccessToken) : List String :=
  (splitWords t.scope.toList []).map String.mk

/-! ## Upload handler (src/micropub.rs and src/main.rs) -/

/-- `MicropubError` (src/micropub.rs lines 26-54). -/
structure MicropubError where
  error : String
  error_description : Option String
  deriving DecidableEq

def MicropubError.new (err : String) : MicropubError := ⟨err, none⟩

def MicropubError.withDescription (err description : String) : MicropubError :=
  ⟨err, some description⟩

/-- serde serialisation of `MicropubError`: `error_description` is skipped
when absent; no character of our payloads needs JSON escaping. -/
def MicropubError.toJson (e : MicropubError) : String :=
  match e.error_description with
  | none => "\x7b\"error\":\"" ++ e.error ++ "\"\x7d"
  | some d =>
    "\x7b\"error\":\"" ++ e.error ++ "\",\"error_description\":\"" ++ d ++ "\"\x7d"

/-- `Content-Disposition` of a multipart field, restricted to
`get_filename`. -/
structure ContentDisp where
  filename : Option String
  deriving DecidableEq

/-- A parsed `mime::Mime`: its top-level type (`type_()`) and its full
rendering (`to_string()`). -/
structure Mime where
  top : String
  full : String
  deriving DecidableEq

instance {ε α : Type} [DecidableEq ε] [DecidableEq α] : DecidableEq (Except ε α) :=
  fun x y =>
    match x, y with
    | .ok a, .ok b =>
      if h : a = b then .isTrue (by rw [h]) else .isFalse (by intro he; cases he; exact h rfl)
    | .error a, .error b =>
      if h : a = b then .isTrue (by rw [h]) else .isFalse (by intro he; cases he; exact h rfl)
    | .ok _, .error _ => .isFalse (by intro he; cases he)
    | .error _, .ok _ => .isFalse (by intro he; cases he)

/-- One multipart field, as consumed by `handle_upload`: the optional
content-disposition header, the content type, and the outcome of
concatenating the body chunks (`try_concat`). -/
structure Field where
  contentDisposition : Option ContentDisp
  contentType : Mime
  bodyResult : Except String (List Nat)
  deriving DecidableEq

/-- rusoto `PutObjectRequest`, restricted to the fields the handler sets. -/
structure PutObjectRequest where
  bucket : String
  key : String
  body : List Nat
  metadata : List (String × String)
  content_type : String
  deriving DecidableEq

/-- An upload response: status, body text, optional Location header. -/
structure UploadResp where
  status : Nat
  body : String
  location : Option String
  deriving DecidableEq

/-- The observable outcome of one run of the upload handler: either an HTTP
response, or a Rust panic (the handler unwinds without responding). -/
inductive UploadOutcome where
  | response (r : UploadResp)
  | panic (msg : String)
  deriving DecidableEq

def optionUnwrapMsg : String := "called Option::unwrap() on a None value"

def resultUnwrapMsg : String := "called Result::unwrap() on an Err value"

/-- Rust `f.rsplit('.').next()`: the substring after the last `'.'`, or the
whole string when it contains no `'.'` (`rsplit` always yields at least one
item, so the `next()` is always `Some`). -/
def rsplitNext (f : String) : String :=
  String.mk ((f.toList.reverse.takeWhile (fun c => c != '.')).reverse)

/-- The classification match of `handle_upload` (src/micropub.rs lines
110-116): content types with top level image/audio/video map to categories
photo/audio/video with separator `"."` and the `rsplit`-extension as suffix;
everything else maps to `file` with separator `"/"` and the whole filename as
suffix.  The source separator is a `char`; it is modelled as a one-character
string. -/
def classifyUpload (top : String) (filename : Option String) :
    String × String × Option String :=
  let ext := filename.bind (fun f => some (rsplitNext f))
  if top = "image" then ("photo", ".", ext)
  else if top = "audio" then ("audio", ".", ext)
  else if top = "video" then ("video", ".", ext)
  else ("file", "/", filename)

/-- The S3 key suffix part of `handle_upload` (src/micropub.rs lines
119-122): `{id}{sep}{suffix}`, or bare `{id}` when the suffix is absent. -/
def uploadKey (newId : String) (top : String) (filename : Option String) : String :=
  let c := classifyUpload top filename
  match c.2.2 with
  | some ext => newId ++ c.2.1 ++ ext
  | none => newId

/-- The public URL of `handle_upload` in src/micropub.rs lines 125-129: photo
uploads get the dimensioned route, every other category the direct route. -/
def uploadUrl (site : SiteConfig) (classification key : String) : String :=
  if classification = "photo" then
    site.media_url ++ "/photo/" ++ toString site.default_width ++ "x" ++
      toString site.default_height ++ "/" ++ key
  else
    site.media_url ++ "/" ++ classification ++ "/" ++ key

/-- The object metadata map (insertion order of the source HashMap inserts). -/
def uploadMetadata (tok : AccessToken) (filename : Option String) :
    List (String × String) :=
  [("client-id", tok.client_id), ("author", tok.me)] ++
    (match filename with
     | some f => [("filename", f)]
     | none => [])

/-- `handle_upload` from src/micropub.rs lines 77-167.  The verifier, the S3
`put_object` call and the generated identifier are passed in; the result pairs
the outcome with the list of put requests issued (for the write-ordering
claims).  `payload` is the outcome of `payload.try_next()`: an error or
`Ok(None)` both fall through to 400. -/
def handle_upload (site : SiteConfig)
    (validate : String → Except String AccessToken)
    (s3put : PutObjectRequest → Except String Unit)
    (newId : String) (authHeader : Option String)
    (payload : Except String (Option Field)) :
    UploadOutcome × List PutObjectRequest :=
  match authHeader with
  | none => (.response ⟨401, (MicropubError.new "unauthorized").toJson, none⟩, [])
  | some auth_header =>
    match validate auth_header with
    | .error e =>
      (.response ⟨401, (MicropubError.withDescription "unauthorized" e).toJson, none⟩, [])
    | .ok access_token =>
      if ¬ "media" ∈ access_token.scopes then
        (.response ⟨401, (MicropubError.new "unauthorized").toJson, none⟩, [])
      else
        match payload with
        | .ok (some field) =>
          match field.contentDisposition with
          | none => (.panic optionUnwrapMsg, [])
          | some content_disp =>
            let filename := content_disp.filename
            let classification := (classifyUpload field.contentType.top filename).1
            let key := uploadKey newId field.contentType.top filename
            let url := uploadUrl site classification key
            let metadata := uploadMetadata access_token filename
            match field.bodyResult with
            | .error _ => (.panic resultUnwrapMsg, [])
            | .ok body =>
              let put_request : PutObjectRequest :=
                ⟨site.s3_bucket, classification ++ "/" ++ key, body, metadata,
                  field.contentType.full⟩
              match s3put put_request with
              | .ok _ => (.response ⟨201, "", some url⟩, [put_request])
              | .error e => (.response ⟨500, e, none⟩, [put_request])
        | _ => (.response ⟨400, "", none⟩, [])

/-- `SiteConfig` from src/main.rs lines 169-198 (the standalone variant,
without default resize dimensions). -/
structure SiteConfigMain where
  bind : String
  token_endpoint : String
  s3_bucket : String
  media_url : String
  deriving DecidableEq

/-- `handle_upload` from src/main.rs lines 77-167: identical to the
src/micropub.rs variant except that the classification prefix is part of the
key and the public URL is always the direct `{media_url}/{key}` — there is no
dimensioned photo route. -/
def handle_upload_main (site : SiteConfigMain)
    (validate : String → Except String AccessToken)
    (s3put : PutObjectRequest → Except String Unit)
    (newId : String) (authHeader : Option String)
    (payload : Except String (Option Field)) :
    UploadOutcome × List PutObjectRequest :=
  match authHeader with
  | none => (.response ⟨401, (MicropubError.new "unauthorized").toJson, none⟩, [])
  | some auth_header =>
    match validate auth_header with
    | .error e =>
      (.response ⟨401, (MicropubError.withDescription "unauthorized" e).toJson, none⟩, [])
    | .ok access_token =>
      if ¬ "media" ∈ access_token.scopes then
        (.response ⟨401, (MicropubError.new "unauthorized").toJson, none⟩, [])
      else
        match payload with
        | .ok (some field) =>
          match field.contentDisposition with
          | none => (.panic optionUnwrapMsg, [])
          | some content_disp =>
            let filename := content_disp.filename
            let classification := (classifyUpload field.contentType.top filename).1
            let key := classification ++ "/" ++ uploadKey newId field.contentType.top filename
            let url := site.media_url ++ "/" ++ key
            let metadata := uploadMetadata access_token filename
            match field.bodyResult with
            | .error _ => (.panic resultUnwrapMsg, [])
            | .ok body =>
              let put_request : PutObjectRequest :=
                ⟨site.s3_bucket, key, body, metadata, field.contentType.full⟩
              match s3put put_request with
              | .ok _ => (.response ⟨201, "", some url⟩, [put_request])
              | .error e => (.response ⟨500, e, none⟩, [put_request])
        | _ => (.response ⟨400, "", none⟩, [])

/-! ## Identifier generation (`random_id`, src/micropub.rs lines 56-75) -/

/-- The custom epoch constant (src/micropub.rs line 24). -/
def EPOCH : Int := 631152000

/-- The 64-bit two's-complement pattern of an `i64` value. -/
def i64pattern (ts : Int) : Nat := (ts % (2 ^ 64 : Int)).toNat

/-- Rust `i64::to_be_bytes` on the 64-bit pattern `n < 2^64`: eight big-endian
bytes. -/
def toBEBytes64 (n : Nat) : List Nat :=
  [n / 2 ^ 56 % 256, n / 2 ^ 48 % 256, n / 2 ^ 40 % 256, n / 2 ^ 32 % 256,
   n / 2 ^ 24 % 256, n / 2 ^ 16 % 256, n / 2 ^ 8 % 256, n % 256]

/-- Bit length of a `Nat` (0 for 0, `log2 n + 1` otherwise). -/
def bitLen (n : Nat) : Nat := if n = 0 then 0 else Nat.log2 n + 1

/-- Rust `i64::leading_zeros` on the 64-bit pattern. -/
def clz64 (n : Nat) : Nat := 64 - bitLen n

/-- The eight bits of a byte, most significant first. -/
def byteBits (b : Nat) : List Bool :=
  [b / 128 % 2 == 1, b / 64 % 2 == 1, b / 32 % 2 == 1, b / 16 % 2 == 1,
   b / 8 % 2 == 1, b / 4 % 2 == 1, b / 2 % 2 == 1, b % 2 == 1]

/-- Value of an at-most-5-bit group, left-aligned (zero-padded on the right),
as in RFC 4648 base-32. -/
def bits5val (c : List Bool) : Nat :=
  (c ++ List.replicate (5 - c.length) false).foldl
    (fun a b => 2 * a + (if b then 1 else 0)) 0

/-- Split a bit stream into consecutive 5-bit group values (the last group
right-padded with zero bits). -/
def chunk5 : List Bool → List Bool → List Nat
  | [], acc => if acc = [] then [] else [bits5val acc.reverse]
  | b :: rest, acc =>
    if acc.length = 4 then bits5val (b :: acc).reverse :: chunk5 rest []
    else chunk5 rest (b :: acc)

/-- The RFC 4648 base-32 alphabet. -/
def base32Alphabet : List Char := "ABCDEFGHIJKLMNOPQRSTUVWXYZ234567".toList

/-- `base32::encode(RFC4648 { padding: false }, bytes)`: 5-bit groups of the
byte stream, MSB first, mapped through the RFC 4648 alphabet, without `=`
padding. -/
def base32encode (bytes : List Nat) : String :=
  String.mk ((chunk5 ((bytes.map byteBits).flatten) []).map
    (fun v => base32Alphabet.getD v 'A'))

/-- The `rand::distributions::Alphanumeric` character set. -/
def alphanumChars : List Char :=
  "ABCDEFGHIJKLMNOPQRSTUVWXYZabcdefghijklmnopqrstuvwxyz0123456789".toList

/-- `random_id` (src/micropub.rs lines 56-75 and src/main.rs lines 56-75).
`now` stands for `Utc::now().timestamp()`; the thread rng is modelled as a
supply of uniform indices into the 62-character alphanumeric alphabet.  The
time part base-32-encodes `to_be_bytes(now - EPOCH)` starting at byte offset
`leading_zeros / 8`; the random part takes 7 sampled characters. -/
def random_id (now : Int) (rng : Nat → Fin 62) : String :=
  let ts := now - EPOCH
  let pattern := i64pattern ts
  let offset := clz64 pattern / 8
  let time_part := base32encode ((toBEBytes64 pattern).drop offset)
  let random_part := String.mk
    ((List.range 7).map (fun i => alphanumChars.getD (rng i) 'A'))
  time_part ++ "-" ++ random_part

/-! ## Resize-dimension lemmas (claim C1) -/

lemma roundHalf_mul_left (d a : Nat) (hd : 0 < d) : roundHalf (d * a) d = a := by
  unfold roundHalf
  rw [show 2 * (d * a) + d = d * (2 * a + 1) by ring, show 2 * d = d * 2 by ring,
    Nat.mul_div_mul_left _ _ hd]
  omega

lemma roundHalf_le_of (num d t : Nat) (hd : 0 < d)
    (hlt : 2 * num + d < 2 * d * (t + 1)) : roundHalf num d ≤ t := by
  unfold roundHalf
  have h := (Nat.div_lt_iff_lt_mul (show 0 < 2 * d by omega)).mpr
    (show 2 * num + d < (t + 1) * (2 * d) by
      calc 2 * num + d < 2 * d * (t + 1) := hlt
        _ = (t + 1) * (2 * d) := by ring)
  omega

lemma one_le_roundHalf (num d : Nat) (hd : 0 < d) (h : d ≤ 2 * num) : 1 ≤ roundHalf num d := by
  unfold roundHalf
  have h2 : 1 * (2 * d) ≤ 2 * num + d := by omega
  exact (Nat.le_div_iff_mul_le (by omega)).mpr h2

/-- The properties of `resize_dimensions`: the output fits within the target
box apart from the clamp to a minimum of one pixel, and — whenever neither
rounded dimension is clamped — the output aspect ratio matches the input one
within half-pixel rounding. -/
lemma resize_dimensions_spec (W H nw nh : Nat) (hW : 0 < W) (hH : 0 < H) :
    (resize_dimensions W H nw nh).1 ≤ max nw 1 ∧
    (resize_dimensions W H nw nh).2 ≤ max nh 1 ∧
    (W ≤ 2 * H * nw → H ≤ 2 * W * nh →
      2 * (((resize_dimensions W H nw nh).1 * H : Int) -
           ((resize_dimensions W H nw nh).2 * W : Int)).natAbs ≤ W + H) := by
  by_cases hc : nw * H ≤ nh * W
  · unfold resize_dimensions
    rw [if_pos hc, roundHalf_mul_left W nw hW]
    refine ⟨le_refl _, ?_, ?_⟩
    · have hle : roundHalf (H * nw) W ≤ nh :=
        roundHalf_le_of _ _ _ hW (by
          have : 2 * (H * nw) ≤ 2 * (nh * W) := by
            have := hc
            nlinarith
          nlinarith)
      exact max_le_max hle (le_refl 1)
    · intro h1 h2
      have hnw1 : 1 ≤ nw := by nlinarith
      have hq1 : 1 ≤ roundHalf (H * nw) W :=
        one_le_roundHalf _ _ hW (by rw [show 2 * (H * nw) = 2 * H * nw by ring]; exact h1)
      rw [Nat.max_eq_left hnw1, Nat.max_eq_left hq1]
      set q := roundHalf (H * nw) W with hq
      have hdm := Nat.div_add_mod (2 * (H * nw) + W) (2 * W)
      have hmlt : (2 * (H * nw) + W) % (2 * W) < 2 * W := Nat.mod_lt _ (by omega)
      set rr := (2 * (H * nw) + W) % (2 * W) with hrr
      have hqd : q = (2 * (H * nw) + W) / (2 * W) := by
        rw [hq]; rfl
      have hdmZ : (2 * W * q + rr : Int) = 2 * (H * nw) + W := by
        rw [hqd]; exact_mod_cast hdm
      have key : 2 * ((nw * H : Int) - (q * W : Int)) = (rr : Int) - W := by linarith
      have hrrZ : (rr : Int) < 2 * W := by exact_mod_cast hmlt
      have hrr0 : (0 : Int) ≤ rr := by positivity
      generalize hX : ((nw * H : Int) - (q * W : Int)) = X at key ⊢
      omega
  · unfold resize_dimensions
    rw [if_neg hc, roundHalf_mul_left H nh hH]
    have hc' : nh * W < nw * H := by omega
    refine ⟨?_, le_refl _, ?_⟩
    · have hle : roundHalf (W * nh) H ≤ nw :=
        roundHalf_le_of _ _ _ hH (by nlinarith)
      exact max_le_max hle (le_refl 1)
    · intro h1 h2
      have hnh1 : 1 ≤ nh := by nlinarith
      have hq1 : 1 ≤ roundHalf (W * nh) H :=
        one_le_roundHalf _ _ hH (by rw [show 2 * (W * nh) = 2 * W * nh by ring]; exact h2)
      rw [Nat.max_eq_left hnh1, Nat.max_eq_left hq1]
      set q := roundHalf (W * nh) H with hq
      have hdm := Nat.div_add_mod (2 * (W * nh) + H) (2 * H)
      have hmlt : (2 * (W * nh) + H) % (2 * H) < 2 * H := Nat.mod_lt _ (by omega)
      set rr := (2 * (W * nh) + H) % (2 * H) with hrr
      have hqd : q = (2 * (W * nh) + H) / (2 * H) := by
        rw [hq]; rfl
      have hdmZ : (2 * H * q + rr : Int) = 2 * (W * nh) + H := by
        rw [hqd]; exact_mod_cast hdm
      have key : 2 * ((q * H : Int) - (nh * W : Int)) = (H : Int) - rr := by linarith
      have hrrZ : (rr : Int) < 2 * H := by exact_mod_cast hmlt
      have hrr0 : (0 : Int) ≤ rr := by positivity
      generalize hX : ((q * H : Int) - (nh * W : Int)) = X at key ⊢
      omega

/-- C1 (amended): for an image of natural size `(W, H)` and a request
`(w, h)` with `w < W` and `h < H`, the intermediate target is
`(w, ⌊w·H/W⌋)` when `w > h` and `(⌊h·W/H⌋, h)` otherwise; the output
dimensions fit within that intermediate target box (clamped below at one
pixel) — not necessarily within the requested box — and, whenever neither
dimension is clamped by the one-pixel minimum, the output aspect ratio equals
`W/H` within half-pixel rounding (`2·|w'·H − h'·W| ≤ W + H`); the scaled
image produced inside `scale_image` has exactly these dimensions. -/
theorem scale_image_dims_spec (W H w h : Nat) (hW : 0 < W) (hH : 0 < H)
    (hw : w < W) (hh : h < H) :
    scaleTarget W H w h = (if h < w then (w, w * H / W) else (h * W / H, h)) ∧
    (scale_image_dims W H w h).1 ≤ max (scaleTarget W H w h).1 1 ∧
    (scale_image_dims W H w h).2 ≤ max (scaleTarget W H w h).2 1 ∧
    (W ≤ 2 * H * (scaleTarget W H w h).1 → H ≤ 2 * W * (scaleTarget W H w h).2 →
      2 * (((scale_image_dims W H w h).1 * H : Int) -
           ((scale_image_dims W H w h).2 * W : Int)).natAbs ≤ W + H) ∧
    (∀ (ops : ImgOps) (img : Image), img.width = W → img.height = H →
      ((scaledImage ops img w h).width, (scaledImage ops img w h).height) =
        scale_image_dims W H w h) := by
  have hdims : scale_image_dims W H w h =
      resize_dimensions W H (scaleTarget W H w h).1 (scaleTarget W H w h).2 := by
    unfold scale_image_dims
    rw [if_pos ⟨hw, hh⟩]
  have hspec := resize_dimensions_spec W H (scaleTarget W H w h).1
    (scaleTarget W H w h).2 hW hH
  refine ⟨rfl, ?_, ?_, ?_, ?_⟩
  · rw [hdims]; exact hspec.1
  · rw [hdims]; exact hspec.2.1
  · rw [hdims]; exact hspec.2.2
  · intro ops img hiw hih
    unfold scaledImage imageResize
    rw [hiw, hih, if_pos ⟨hw, hh⟩, hdims]

/-- C1 counterexample: for a 100×100 image and request `(50, 10)` (both
strictly smaller than the natural size), `scale_image` produces a 50×50
image, so the claimed bound `h' ≤ h` fails. -/
theorem scale_image_dims_claim_cex :
    50 < 100 ∧ 10 < 100 ∧ scale_image_dims 100 100 50 10 = (50, 50) ∧
      ¬ (scale_image_dims 100 100 50 10).2 ≤ 10 := by decide

/-- Witness for `scale_image_dims_spec` at `(W,H,w,h) = (100,80,50,40)`. -/
theorem scale_image_dims_spec_witness :
    (scale_image_dims 100 80 50 40).1 ≤ max (scaleTarget 100 80 50 40).1 1 ∧
    (scale_image_dims 100 80 50 40).2 ≤ max (scaleTarget 100 80 50 40).2 1 :=
  ⟨(scale_image_dims_spec 100 80 50 40 (by decide) (by decide) (by decide)
      (by decide)).2.1,
   (scale_image_dims_spec 100 80 50 40 (by decide) (by decide) (by decide)
      (by decide)).2.2.1⟩

/-! ## Claim C2: behaviour of `scale_image` when no downscale applies -/

/-- A concrete instance of the codec capability, exhibiting the standard
property of real codecs (JPEG in particular) that encoding is canonical while
decoding accepts more than one byte representation: the decoder accepts a
leading marker byte of 7 or 8, the encoder always emits 7. -/
def toyOps : ImgOps where
  guessFormat := fun d =>
    match d with
    | m :: _ => if m = 7 ∨ m = 8 then .ok .png else .error "unsupported format"
    | [] => .error "unsupported format"
  decode := fun _ d =>
    match d with
    | m :: w :: h :: px =>
      if m = 7 ∨ m = 8 then .ok (none, ⟨w, h, px⟩) else .error "decode error"
    | _ => .error "decode error"
  resizePixels := fun img _ _ => img.content
  encode := fun _ img => .ok (7 :: img.width :: img.height :: img.content)

/-- C2 (amended): when either requested dimension is not strictly smaller
than the corresponding (orientation-normalised) natural dimension, no resize
is performed, but the image is still decoded, orientation-normalised and
re-encoded in the detected format: the result is exactly the re-encoding of
the decoded image — equal to the stored bytes only when the codec round-trips
them — and the content type is the MIME name of the detected format. -/
theorem scale_image_no_upscale (ops : ImgOps) (data : List Nat) (w h : Nat)
    (fmt : ImageFormat) (ornt : Option ExifOrientation) (img0 : Image)
    (hfmt : ops.guessFormat data = .ok fmt)
    (hdec : ops.decode fmt data = .ok (ornt, img0))
    (hno : ¬ (w < (applyOrientation (ornt.getD .noTransforms) img0).width ∧
              h < (applyOrientation (ornt.getD .noTransforms) img0).height)) :
    scale_image ops data w h =
      (ops.encode fmt (applyOrientation (ornt.getD .noTransforms) img0)).map
        (fun nd => (mime_for_image fmt, nd)) := by
  unfold scale_image scaledImage
  simp only [hfmt, hdec, if_neg hno]
  cases ops.encode fmt (applyOrientation (ornt.getD .noTransforms) img0) <;> rfl

/-- C2 counterexample: a stored 2×1 image requested at 4000×4000 (no
downscale applies) comes back as the re-encoded bytes `[7, 2, 1]`, not the
original stored bytes `[8, 2, 1]`. -/
theorem scale_image_reencode_cex :
    scale_image toyOps [8, 2, 1] 4000 4000 = .ok ("image/png", [7, 2, 1]) ∧
      ([7, 2, 1] : List Nat) ≠ [8, 2, 1] := by decide

/-- Witness for `scale_image_no_upscale` on `toyOps` with input `[7, 2, 1]`
(a 2×1 image) and request 4000×4000. -/
theorem scale_image_no_upscale_witness :
    scale_image toyOps [7, 2, 1] 4000 4000 =
      (toyOps.encode .png
          (applyOrientation ((none : Option ExifOrientation).getD .noTransforms)
            ⟨2, 1, []⟩)).map
        (fun nd => (mime_for_image .png, nd)) :=
  scale_image_no_upscale toyOps [7, 2, 1] 4000 4000 .png none ⟨2, 1, []⟩
    (by decide) (by decide) (by decide)

/-! ## Claim C3: status codes for absent objects -/

/-- C3 (amended): a failing storage call — which is how S3 reports a missing
object — yields **500** from `serve_file`, `head_file` and `serve_photo`; the
404 branch fires only when the storage call succeeds but carries no body
(`serve_file`/`serve_photo`), and `head_file` has no 404 branch at all: a
successful head, body or not, yields 200. -/
theorem serve_absent_object_status (cfg : SiteConfig) (ops : ImgOps)
    (e : String) (hd : S3Headers) (mt fn : String) :
    (serve_file cfg (fun _ => .error e) (some mt) (some fn)).status = 500 ∧
    (head_file cfg (fun _ => .error e) (some mt) (some fn)).status = 500 ∧
    (serve_photo ops cfg (fun _ => .error e) (some "50") (some "50")
      (some fn)).status = 500 ∧
    (serve_file cfg (fun _ => .ok ⟨hd, none⟩) (some mt) (some fn)).status = 404 ∧
    (serve_photo ops cfg (fun _ => .ok ⟨hd, none⟩) (some "50") (some "50")
      (some fn)).status = 404 ∧
    (head_file cfg (fun _ => .ok hd) (some mt) (some fn)).status = 200 :=
  ⟨rfl, rfl, rfl, rfl, rfl, rfl⟩

/-- C3 counterexample: with a storage backend that has no such object (the
get/head call fails, as S3 reports for a missing key), the GET, HEAD and
dimensioned-photo routes all answer 500, not the claimed 404. -/
theorem serve_absent_object_cex :
    (serve_file ⟨"bucket", "https://m", 100, 100⟩ (fun _ => .error "NoSuchKey")
      (some "photo") (some "missing.jpg")).status = 500 ∧
    (head_file ⟨"bucket", "https://m", 100, 100⟩ (fun _ => .error "NoSuchKey")
      (some "photo") (some "missing.jpg")).status = 500 ∧
    (serve_photo toyOps ⟨"bucket", "https://m", 100, 100⟩
      (fun _ => .error "NoSuchKey") (some "50") (some "50")
      (some "missing.jpg")).status = 500 := by decide

/-! ## Claim C4: key suffix construction -/

lemma takeWhile_neq_split (m : List Char) (h : '.' ∈ m) :
    m = m.takeWhile (fun c => c != '.') ++
      '.' :: (m.dropWhile (fun c => c != '.')).tail := by
  induction m with
  | nil => cases h
  | cons c t ih =>
    by_cases hc : c = '.'
    · subst hc
      simp [List.takeWhile_cons, List.dropWhile_cons]
    · have ht : '.' ∈ t := by
        rcases List.mem_cons.mp h with h1 | h1
        · exact absurd h1.symm hc
        · exact h1
      have hcb : (c != '.') = true := by simp [hc]
      rw [List.takeWhile_cons, List.dropWhile_cons]
      simp only [hcb, if_true, List.cons_append]
      exact congrArg (c :: ·) (ih ht)

lemma rsplitNext_no_dot (f : String) (h : '.' ∉ f.toList) : rsplitNext f = f := by
  unfold rsplitNext
  have hall : ∀ c ∈ f.toList.reverse, (c != '.') = true := by
    intro c hc
    have : c ∈ f.toList := List.mem_reverse.mp hc
    have : c ≠ '.' := fun he => h (he ▸ this)
    simp [this]
  rw [List.takeWhile_eq_self_iff.mpr hall, List.reverse_reverse]
  rfl

lemma rsplitNext_after_dot (f : String) (h : '.' ∈ f.toList) :
    ∃ pre, f.toList = pre ++ '.' :: (rsplitNext f).toList ∧
      '.' ∉ (rsplitNext f).toList := by
  have hm : '.' ∈ f.toList.reverse := List.mem_reverse.mpr h
  have hsplit := takeWhile_neq_split f.toList.reverse hm
  have hlist : (rsplitNext f).toList =
      (f.toList.reverse.takeWhile (fun c => c != '.')).reverse := rfl
  refine ⟨((f.toList.reverse.dropWhile (fun c => c != '.')).tail).reverse, ?_, ?_⟩
  · rw [hlist]
    calc f.toList = f.toList.reverse.reverse := (List.reverse_reverse _).symm
      _ = ((f.toList.reverse.takeWhile (fun c => c != '.')) ++
            '.' :: (f.toList.reverse.dropWhile (fun c => c != '.')).tail).reverse := by
          rw [← hsplit]
      _ = _ := by simp
  · rw [hlist]
    intro hmem
    have := List.mem_takeWhile_imp (List.mem_reverse.mp hmem)
    simp at this

/-- C4 (amended): for image/audio/video uploads with a filename the key
suffix is always present and equals the substring after the last `.` — which
is the **whole filename** when the filename contains no `.` (Rust
`rsplit('.').next()` never yields `None`), not an absent suffix as claimed;
for every other content type the suffix is the entire filename joined with
`/`. -/
theorem classify_suffix_spec (top f : String) :
    ((top = "image" ∨ top = "audio" ∨ top = "video") →
      (classifyUpload top (some f)).2.2 = some (rsplitNext f) ∧
      ('.' ∉ f.toList → rsplitNext f = f) ∧
      ('.' ∈ f.toList →
        ∃ pre, f.toList = pre ++ '.' :: (rsplitNext f).toList ∧
          '.' ∉ (rsplitNext f).toList)) ∧
    (¬ (top = "image" ∨ top = "audio" ∨ top = "video") →
      classifyUpload top (some f) = ("file", "/", some f)) := by
  constructor
  · rintro (h | h | h) <;> subst h <;>
      exact ⟨rfl, rsplitNext_no_dot f, rsplitNext_after_dot f⟩
  · intro hne
    push_neg at hne
    unfold classifyUpload
    rw [if_neg hne.1, if_neg hne.2.1, if_neg hne.2.2]

/-- C4 counterexample: an image upload with the dot-free filename `photo`
gets key suffix `photo` (the whole filename), not the claimed absent
suffix. -/
theorem classify_no_dot_cex :
    (classifyUpload "image" (some "photo")).2.2 = some "photo" ∧
      '.' ∉ "photo".toList ∧
      uploadKey "id0" "image" (some "photo") = "id0.photo" := by decide

/-- Witness for `classify_suffix_spec` at `top = "image"`, `f = "a.tar.gz"`. -/
theorem classify_suffix_spec_witness :
    (classifyUpload "image" (some "a.tar.gz")).2.2 = some (rsplitNext "a.tar.gz") ∧
      rsplitNext "a.tar.gz" = "gz" :=
  ⟨((classify_suffix_spec "image" "a.tar.gz").1 (Or.inl rfl)).1, by decide⟩

/-! ## Concrete fixtures for the upload claims -/

def tok0 : AccessToken := ⟨"https://me.example/", "https://app.example/", "create media"⟩

def validate0 : String → Except String AccessToken := fun _ => .ok tok0

def s3putOk : PutObjectRequest → Except String Unit := fun _ => .ok ()

def site0 : SiteConfig := ⟨"bucket", "https://cdn.example/media", 1000, 800⟩

def jpegMime : Mime := ⟨"image", "image/jpeg"⟩

/-! ## Claim C10: missing Content-Disposition panics -/

/-- C10: when authorization succeeds and the first multipart field carries no
Content-Disposition header, the upload handler panics on
`content_disposition().unwrap()` instead of returning a response (and issues
no storage write). -/
theorem upload_missing_cd_panics (site : SiteConfig)
    (validate : String → Except String AccessToken)
    (s3put : PutObjectRequest → Except String Unit)
    (newId ah : String) (tok : AccessToken) (ct : Mime)
    (body : Except String (List Nat))
    (hval : validate ah = .ok tok) (hsc : "media" ∈ tok.scopes) :
    handle_upload site validate s3put newId (some ah)
      (.ok (some ⟨none, ct, body⟩)) = (.panic optionUnwrapMsg, []) := by
  simp [handle_upload, hval, hsc]

/-- Witness for `upload_missing_cd_panics` on the concrete fixtures. -/
theorem upload_missing_cd_panics_witness :
    validate0 "Bearer t" = .ok tok0 ∧ "media" ∈ tok0.scopes ∧
    handle_upload site0 validate0 s3putOk "id0" (some "Bearer t")
      (.ok (some ⟨none, jpegMime, .ok [1, 2]⟩)) = (.panic optionUnwrapMsg, []) :=
  ⟨rfl, by decide,
    upload_missing_cd_panics site0 validate0 s3putOk "id0" "Bearer t" tok0
      jpegMime (.ok [1, 2]) rfl (by decide)⟩

/-! ## Claims C5, C6, C7: upload error reporting, authorization, write order -/

lemma handle_upload_put_len (site : SiteConfig)
    (validate : String → Except String AccessToken)
    (s3put : PutObjectRequest → Except String Unit)
    (newId : String) (ah : Option String)
    (payload : Except String (Option Field)) :
    (handle_upload site validate s3put newId ah payload).2.length ≤ 1 := by
  rcases ah with _ | a
  · simp [handle_upload]
  · rcases hv : validate a with e | tok
    · simp [handle_upload, hv]
    · by_cases hm : "media" ∈ tok.scopes
      · rcases payload with pe | po
        · simp [handle_upload, hv, hm]
        · rcases po with _ | f
          · simp [handle_upload, hv, hm]
          · obtain ⟨cdo, ct, br⟩ := f
            rcases cdo with _ | cd
            · simp [handle_upload, hv, hm]
            · rcases br with be | bb
              · simp [handle_upload, hv, hm]
              · simp only [handle_upload, hv]
                rw [if_neg (not_not_intro hm)]
                split <;> simp
      · simp [handle_upload, hv, hm]

/-- C5 (amended): for an authorized upload, a storage-put failure is reported
as a 500 response carrying the error text, with exactly one put issued; a
failure while concatenating the multipart body makes the handler **panic**
(`try_concat().unwrap()`), producing no HTTP response and no storage write;
and no execution ever issues more than one put (nothing is retried). -/
theorem upload_error_reporting (site : SiteConfig)
    (validate : String → Except String AccessToken)
    (newId ah : String) (tok : AccessToken) (cd : ContentDisp) (ct : Mime)
    (hval : validate ah = .ok tok) (hsc : "media" ∈ tok.scopes) :
    (∀ (s3put : PutObjectRequest → Except String Unit) (be : String),
      handle_upload site validate s3put newId (some ah)
        (.ok (some ⟨some cd, ct, .error be⟩)) = (.panic resultUnwrapMsg, [])) ∧
    (∀ (body : List Nat) (e : String),
      (handle_upload site validate (fun _ => .error e) newId (some ah)
        (.ok (some ⟨some cd, ct, .ok body⟩))).1 = .response ⟨500, e, none⟩ ∧
      (handle_upload site validate (fun _ => .error e) newId (some ah)
        (.ok (some ⟨some cd, ct, .ok body⟩))).2.length = 1) ∧
    (∀ (s3put : PutObjectRequest → Except String Unit) (ah' : Option String)
      (payload : Except String (Option Field)),
      (handle_upload site validate s3put newId ah' payload).2.length ≤ 1) := by
  refine ⟨?_, ?_, ?_⟩
  · intro s3put be
    simp [handle_upload, hval, hsc]
  · intro body e
    constructor <;> simp [handle_upload, hval, hsc]
  · intro s3put ah' payload
    exact handle_upload_put_len site validate s3put newId ah' payload

/-- C5 counterexample: an authorized upload whose body concatenation fails is
not answered with a 500 — the handler panics and no response is produced. -/
theorem upload_body_error_cex :
    handle_upload site0 validate0 s3putOk "id0" (some "Bearer t")
      (.ok (some ⟨some ⟨some "a.jpg"⟩, jpegMime, .error "connection reset"⟩)) =
      (.panic resultUnwrapMsg, []) := by decide

/-- Witness for `upload_error_reporting` on the concrete fixtures. -/
theorem upload_error_reporting_witness :
    (handle_upload site0 validate0 (fun _ => .error "storage down") "id0"
      (some "Bearer t")
      (.ok (some ⟨some ⟨some "a.jpg"⟩, jpegMime, .ok [9]⟩))).1 =
      .response ⟨500, "storage down", none⟩ :=
  ((upload_error_reporting site0 validate0 "id0" "Bearer t" tok0 ⟨some "a.jpg"⟩
      jpegMime rfl (by decide)).2.1 [9] "storage down").1

/-- C7: a storage put is issued only in executions where every authorization
check has succeeded: whenever the put trace is non-empty, the Authorization
header was present, the verifier accepted it, and the granted scopes contain
`media`. -/
theorem upload_put_requires_auth (site : SiteConfig)
    (validate : String → Except String AccessToken)
    (s3put : PutObjectRequest → Except String Unit)
    (newId : String) (ah : Option String)
    (payload : Except String (Option Field))
    (hne : (handle_upload site validate s3put newId ah payload).2 ≠ []) :
    ∃ a tok, ah = some a ∧ validate a = .ok tok ∧ "media" ∈ tok.scopes := by
  rcases ah with _ | a
  · simp [handle_upload] at hne
  · rcases hv : validate a with e | tok
    · simp [handle_upload, hv] at hne
    · by_cases hm : "media" ∈ tok.scopes
      · exact ⟨a, tok, rfl, hv, hm⟩
      · simp [handle_upload, hv, hm] at hne

/-- Witness for `upload_put_requires_auth` on a successful concrete upload. -/
theorem upload_put_requires_auth_witness :
    ∃ a tok, (some "Bearer t" : Option String) = some a ∧
      validate0 a = .ok tok ∧ "media" ∈ tok.scopes :=
  upload_put_requires_auth site0 validate0 s3putOk "id0" (some "Bearer t")
    (.ok (some ⟨some ⟨some "a.jpg"⟩, jpegMime, .ok [9]⟩)) (by decide)

/-- C6: the upload endpoint answers 401 with a JSON error body exactly on
authorization failure — a missing (or non-UTF-8) Authorization header yields
the exact body `\x7b"error":"unauthorized"\x7d`, a verifier rejection yields the
described JSON body, a token without the `media` scope yields the exact JSON
body again, and conversely every 401 response arises from one of these three
authorization failures. -/
theorem upload_unauthorized_iff (site : SiteConfig)
    (validate : String → Except String AccessToken)
    (s3put : PutObjectRequest → Except String Unit) (newId : String)
    (payload : Except String (Option Field)) :
    ((handle_upload site validate s3put newId none payload).1 =
       .response ⟨401, "\x7b\"error\":\"unauthorized\"\x7d", none⟩) ∧
    (∀ a e, validate a = .error e →
       (handle_upload site validate s3put newId (some a) payload).1 =
         .response ⟨401, (MicropubError.withDescription "unauthorized" e).toJson, none⟩) ∧
    (∀ a tok, validate a = .ok tok → ¬ "media" ∈ tok.scopes →
       (handle_upload site validate s3put newId (some a) payload).1 =
         .response ⟨401, "\x7b\"error\":\"unauthorized\"\x7d", none⟩) ∧
    (∀ (ah : Option String) (r : UploadResp),
       (handle_upload site validate s3put newId ah payload).1 = .response r →
       r.status = 401 →
       ah = none ∨ ∃ a, ah = some a ∧
         ((∃ e, validate a = .error e) ∨
          ∃ tok, validate a = .ok tok ∧ ¬ "media" ∈ tok.scopes)) := by
  refine ⟨rfl, ?_, ?_, ?_⟩
  · intro a e hv
    simp [handle_upload, hv]
  · intro a tok hv hm
    simp only [handle_upload, hv]
    rw [if_pos hm]
    rfl
  · intro ah r heq h401
    rcases ah with _ | a
    · exact Or.inl rfl
    · right
      refine ⟨a, rfl, ?_⟩
      rcases hv : validate a with e | tok
      · exact Or.inl ⟨e, rfl⟩
      · by_cases hm : "media" ∈ tok.scopes
        · exfalso
          rcases payload with pe | po
          · simp [handle_upload, hv, hm] at heq
            subst heq
            simp at h401
          · rcases po with _ | f
            · simp [handle_upload, hv, hm] at heq
              subst heq
              simp at h401
            · obtain ⟨cdo, ct, br⟩ := f
              rcases cdo with _ | cd
              · simp [handle_upload, hv, hm] at heq
              · rcases br with be | bb
                · simp [handle_upload, hv, hm] at heq
                · simp only [handle_upload, hv] at heq
                  rw [if_neg (not_not_intro hm)] at heq
                  split at heq <;> (simp at heq; subst heq; simp at h401)
        · exact Or.inr ⟨tok, rfl, hm⟩

/-- Witness for `upload_unauthorized_iff`: the missing-header clause on the
concrete fixtures. -/
theorem upload_unauthorized_iff_witness :
    (handle_upload site0 validate0 s3putOk "id0" none (.ok none)).1 =
      .response ⟨401, "\x7b\"error\":\"unauthorized\"\x7d", none⟩ :=
  (upload_unauthorized_iff site0 validate0 s3putOk "id0" (.ok none)).1

/-! ## Claim C8: public URL construction -/

/-- C8 (amended): the two upload-handler variants build different public
URLs.  The src/micropub.rs handler specialises photo uploads to the
dimensioned route `{media_url}/photo/{default_width}x{default_height}/{key}`
and gives every other category the direct `{media_url}/{category}/{key}` URL;
the src/main.rs handler returns the direct `{media_url}/{category}/{key}` URL
for **every** category, photos included — no dimensioned route. -/
theorem upload_public_url_spec (site : SiteConfig) (siteM : SiteConfigMain)
    (validate : String → Except String AccessToken)
    (newId ah : String) (tok : AccessToken) (cd : ContentDisp) (ct : Mime)
    (body : List Nat)
    (hval : validate ah = .ok tok) (hsc : "media" ∈ tok.scopes) :
    (ct.top = "image" →
      (handle_upload site validate (fun _ => .ok ()) newId (some ah)
        (.ok (some ⟨some cd, ct, .ok body⟩))).1 =
        .response ⟨201, "", some (site.media_url ++ "/photo/" ++
          toString site.default_width ++ "x" ++ toString site.default_height ++
          "/" ++ uploadKey newId ct.top cd.filename)⟩) ∧
    (ct.top ≠ "image" →
      ∃ cl, cl ≠ "photo" ∧ cl = (classifyUpload ct.top cd.filename).1 ∧
      (handle_upload site validate (fun _ => .ok ()) newId (some ah)
        (.ok (some ⟨some cd, ct, .ok body⟩))).1 =
        .response ⟨201, "", some (site.media_url ++ "/" ++ cl ++ "/" ++
          uploadKey newId ct.top cd.filename)⟩) ∧
    (handle_upload_main siteM validate (fun _ => .ok ()) newId (some ah)
        (.ok (some ⟨some cd, ct, .ok body⟩))).1 =
      .response ⟨201, "", some (siteM.media_url ++ "/" ++
        ((classifyUpload ct.top cd.filename).1 ++ "/" ++
          uploadKey newId ct.top cd.filename))⟩ := by
  refine ⟨?_, ?_, ?_⟩
  · intro himg
    have hcl : (classifyUpload ct.top cd.filename).1 = "photo" := by
      simp [classifyUpload, himg]
    simp only [handle_upload, hval]
    rw [if_neg (not_not_intro hsc)]
    simp [uploadUrl, hcl]
  · intro hne
    have hcl : (classifyUpload ct.top cd.filename).1 ≠ "photo" := by
      unfold classifyUpload
      rw [if_neg hne]
      split_ifs <;> simp
    refine ⟨(classifyUpload ct.top cd.filename).1, hcl, rfl, ?_⟩
    simp only [handle_upload, hval]
    rw [if_neg (not_not_intro hsc)]
    simp only [uploadUrl, if_neg hcl]
  · simp only [handle_upload_main, hval]
    rw [if_neg (not_not_intro hsc)]

/-- C8 counterexample: a successful photo upload through the src/main.rs
handler returns Location `m/photo/id7.jpg` — two slashes, i.e. no
`{width}x{height}` path segment — so the claimed dimensioned route does not
hold for every successful photo upload. -/
theorem main_photo_url_cex :
    (handle_upload_main ⟨"0.0.0.0:8180", "https://tokens.example/", "bucket", "m"⟩
      validate0 s3putOk "id7" (some "Bearer t")
      (.ok (some ⟨some ⟨some "a.jpg"⟩, jpegMime, .ok [1]⟩))).1 =
      .response ⟨201, "", some "m/photo/id7.jpg"⟩ ∧
    ("m/photo/id7.jpg".toList.count '/') = 2 := by decide

/-- Witness for `upload_public_url_spec`: the photo clause on the concrete
fixtures. -/
theorem upload_public_url_spec_witness :
    (handle_upload site0 validate0 (fun _ => .ok ()) "id0" (some "Bearer t")
      (.ok (some ⟨some ⟨some "a.jpg"⟩, jpegMime, .ok [1]⟩))).1 =
      .response ⟨201, "", some (site0.media_url ++ "/photo/" ++
        toString site0.default_width ++ "x" ++ toString site0.default_height ++
        "/" ++ uploadKey "id0" jpegMime.top (some "a.jpg"))⟩ :=
  (upload_public_url_spec site0 ⟨"b", "t", "bucket", "m"⟩ validate0 "id0"
    "Bearer t" tok0 ⟨some "a.jpg"⟩ jpegMime [1] rfl (by decide)).1 rfl

/-! ## Claim C9: structure of generated identifiers -/

lemma dropWhile_zero_eq_drop (k : Nat) (l : List Nat) (hk : k ≤ l.length)
    (hz : ∀ i, i < k → l.getD i 1 = 0)
    (hnz : k < l.length → l.getD k 1 ≠ 0) :
    l.dropWhile (fun b => b == 0) = l.drop k := by
  induction k generalizing l with
  | zero =>
    cases l with
    | nil => rfl
    | cons c t =>
      have hc : c ≠ 0 := by simpa using hnz (by simp)
      simp [List.dropWhile_cons, hc]
  | succ k ih =>
    cases l with
    | nil => simp at hk
    | cons c t =>
      have hc : c = 0 := by simpa using hz 0 (Nat.succ_pos k)
      subst hc
      rw [List.drop_succ_cons]
      rw [show List.dropWhile (fun b => b == 0) (0 :: t) =
            List.dropWhile (fun b => b == 0) t by simp [List.dropWhile_cons]]
      exact ih t (by simpa using hk)
        (fun i hi => by simpa using hz (i + 1) (by omega))
        (fun hlt => by simpa using hnz (by simpa using hlt))

lemma toBE_drop_case (n j : Nat) (hj : j ≤ 7) (hlow : 2 ^ (8 * j) ≤ n)
    (hup : n < 2 ^ (8 * j + 8)) :
    (toBEBytes64 n).drop (7 - j) = (toBEBytes64 n).dropWhile (fun b => b == 0) := by
  interval_cases j
  · norm_num at hlow hup
    refine (dropWhile_zero_eq_drop 7 _ (by norm_num [toBEBytes64]) ?_ ?_).symm
    · intro i hi
      interval_cases i
      all_goals simp [toBEBytes64]
      all_goals omega
    · intro _
      simp [toBEBytes64]
      omega
  · norm_num at hlow hup
    refine (dropWhile_zero_eq_drop 6 _ (by norm_num [toBEBytes64]) ?_ ?_).symm
    · intro i hi
      interval_cases i
      all_goals simp [toBEBytes64]
      all_goals omega
    · intro _
      simp [toBEBytes64]
      omega
  · norm_num at hlow hup
    refine (dropWhile_zero_eq_drop 5 _ (by norm_num [toBEBytes64]) ?_ ?_).symm
    · intro i hi
      interval_cases i
      all_goals simp [toBEBytes64]
      all_goals omega
    · intro _
      simp [toBEBytes64]
      omega
  · norm_num at hlow hup
    refine (dropWhile_zero_eq_drop 4 _ (by norm_num [toBEBytes64]) ?_ ?_).symm
    · intro i hi
      interval_cases i
      all_goals simp [toBEBytes64]
      all_goals omega
    · intro _
      simp [toBEBytes64]
      omega
  · norm_num at hlow hup
    refine (dropWhile_zero_eq_drop 3 _ (by norm_num [toBEBytes64]) ?_ ?_).symm
    · intro i hi
      interval_cases i
      all_goals simp [toBEBytes64]
      all_goals omega
    · intro _
      simp [toBEBytes64]
      omega
  · norm_num at hlow hup
    refine (dropWhile_zero_eq_drop 2 _ (by norm_num [toBEBytes64]) ?_ ?_).symm
    · intro i hi
      interval_cases i
      all_goals simp [toBEBytes64]
      all_goals omega
    · intro _
      simp [toBEBytes64]
      omega
  · norm_num at hlow hup
    refine (dropWhile_zero_eq_drop 1 _ (by norm_num [toBEBytes64]) ?_ ?_).symm
    · intro i hi
      interval_cases i
      all_goals simp [toBEBytes64]
      all_goals omega
    · intro _
      simp [toBEBytes64]
      omega
  · norm_num at hlow hup
    refine (dropWhile_zero_eq_drop 0 _ (by norm_num [toBEBytes64]) ?_ ?_).symm
    · intro i hi
      exact absurd hi (by omega)
    · intro _
      simp [toBEBytes64]
      omega

lemma drop_clz_eq_dropWhile (n : Nat) (hn : n < 2 ^ 64) :
    (toBEBytes64 n).drop (clz64 n / 8) = (toBEBytes64 n).dropWhile (fun b => b == 0) := by
  by_cases h0 : n = 0
  · subst h0
    decide
  · have hlo : 2 ^ Nat.log2 n ≤ n := (Nat.le_log2 h0).mp (le_refl _)
    have hhi : n < 2 ^ (Nat.log2 n + 1) := (Nat.log2_lt h0).mp (Nat.lt_succ_self _)
    have hL63 : Nat.log2 n ≤ 63 := by
      by_contra hc
      have h2 : (2 : Nat) ^ 64 ≤ 2 ^ Nat.log2 n :=
        Nat.pow_le_pow_right (by norm_num) (by omega)
      omega
    have hclz : clz64 n / 8 = 7 - Nat.log2 n / 8 := by
      unfold clz64 bitLen
      rw [if_neg h0]
      omega
    rw [hclz]
    exact toBE_drop_case n (Nat.log2 n / 8) (by omega)
      (le_trans (Nat.pow_le_pow_right (by norm_num) (by omega)) hlo)
      (lt_of_lt_of_le hhi (Nat.pow_le_pow_right (by norm_num) (by omega)))

/-- C9: every generated identifier has the form `{time_part}-{random_part}`,
where the random part is exactly 7 characters drawn from the mixed-case
alphanumeric alphabet, and the time part is the unpadded RFC 4648 base-32
encoding of the big-endian bytes of the 64-bit pattern of
`now - EPOCH` with the leading all-zero bytes stripped (the code's byte
offset `leading_zeros / 8` strips exactly the leading zero bytes). -/
theorem random_id_spec (now : Int) (rng : Nat → Fin 62) :
    ∃ t r : String, random_id now rng = t ++ "-" ++ r ∧
      r.length = 7 ∧ (∀ c, c ∈ r.toList → c ∈ alphanumChars) ∧
      t = base32encode
        ((toBEBytes64 (i64pattern (now - EPOCH))).dropWhile (fun b => b == 0)) := by
  have hlt : i64pattern (now - EPOCH) < 2 ^ 64 := by
    unfold i64pattern
    have h1 : (now - EPOCH) % (2 ^ 64 : Int) < 2 ^ 64 :=
      Int.emod_lt_of_pos _ (by norm_num)
    omega
  refine ⟨base32encode ((toBEBytes64 (i64pattern (now - EPOCH))).drop
      (clz64 (i64pattern (now - EPOCH)) / 8)),
    String.mk ((List.range 7).map (fun i => alphanumChars.getD (rng i) 'A')),
    rfl, ?_, ?_, ?_⟩
  · simp [String.length]
  · have hmem : ∀ i : Fin 62, alphanumChars.getD (i : Nat) 'A' ∈ alphanumChars := by
      decide
    intro c hc
    have hc2 : c ∈ (List.range 7).map (fun i => alphanumChars.getD (rng i) 'A') := hc
    rcases List.mem_map.mp hc2 with ⟨i, _, hi⟩
    exact hi ▸ hmem (rng i)
  · exact congrArg base32encode (drop_clz_eq_dropWhile _ hlt)

/-- Witness for `random_id_spec` at the epoch instant with a constant rng. -/
theorem random_id_spec_witness :
    ∃ t r : String,
      random_id 631152000 (fun _ => (⟨0, by omega⟩ : Fin 62)) = t ++ "-" ++ r ∧
      r.length = 7 ∧ (∀ c, c ∈ r.toList → c ∈ alphanumChars) ∧
      t = base32encode
        ((toBEBytes64 (i64pattern ((631152000 : Int) - EPOCH))).dropWhile
          (fun b => b == 0)) :=
  random_id_spec 631152000 (fun _ => ⟨0, by omega⟩)
end S3Media
